import Mathlib

/-!
Shallow embedding of `pkg/sharings/sharings.go` from cozy-stack: the Sharing
entity, sharing-type validation, recipient resolution, creation checking,
sharing-request creation, and the JSON:API relationship projection.

Go's pointer-based in-place mutation is modelled by explicit state passing: an
operation that mutates the `Sharing` it receives returns the updated `Sharing`
value alongside its result.  Store I/O is modelled by an abstract `Database`
of pure functions plus an explicit trace (`List StoreOp`) of the store calls an
operation performs.
-/

namespace Sharings

/-- Equality of store results is decidable, so witnesses can be checked by
evaluation. -/
instance {ε α : Type} [DecidableEq ε] [DecidableEq α] :
    DecidableEq (Except ε α) := fun a b =>
  match a, b with
  | Except.ok x, Except.ok y =>
      if h : x = y then isTrue (by rw [h])
      else isFalse (fun hh => h (Except.ok.inj hh))
  | Except.error x, Except.error y =>
      if h : x = y then isTrue (by rw [h])
      else isFalse (fun hh => h (Except.error.inj hh))
  | Except.ok _, Except.error _ => isFalse (fun hh => Except.noConfusion hh)
  | Except.error _, Except.ok _ => isFalse (fun hh => Except.noConfusion hh)

/-! Modelled from the spec: the enumerated constants of `pkg/consts` consumed
by this file (not under src/).  The spec fixes the three `sharing_type` wire
strings and the `"pending"` status; the two doctype collection names are
opaque identifiers whose exact strings nothing here depends on. -/
namespace consts

def OneShotSharing : String := "one-shot"

def MasterSlaveSharing : String := "master-slave"

def MasterMasterSharing : String := "master-master"

def PendingSharingStatus : String := "pending"

def Sharings : String := "io.cozy.sharings"

def Recipients : String := "io.cozy.recipients"

end consts

/-- Modelled from the spec: the document store's error space (`couchdb`
errors, not under src/) — a distinguishable "not found" condition and
arbitrary other failures. -/
inductive StoreErr : Type where
  | notFound : StoreErr
  | internal (msg : String) : StoreErr
deriving DecidableEq, Repr

/-- Modelled from the spec: `couchdb.IsNotFoundError` recognises exactly the
store's "not found" condition. -/
def IsNotFoundError : StoreErr → Bool
  | StoreErr.notFound => true
  | StoreErr.internal _ => false

/-- The error values this package can surface: its own sentinel errors
(`pkg/sharings/errors.go`, modelled from the spec's closed set of named
domain errors), plus pass-through injections of store errors and of
scope-parser errors. -/
inductive Err : Type where
  | recipientDoesNotExist : Err
  | badSharingType : Err
  | missingState : Err
  | missingScope : Err
  | scope (msg : String) : Err
  | store (e : StoreErr) : Err
deriving DecidableEq, Repr

/-- Modelled from the spec: a parsed permission set is an opaque structure
produced by the external scope grammar (`pkg/permissions`, not under src/);
its internals are irrelevant here. -/
abbrev PermSet := List String

/-- `jsonapi.ResourceIdentifier`: a `{id, type}` pair.  (`Type` is a Lean
keyword, so the Go field `Type` is spelled `Typ`.) -/
structure ResourceIdentifier where
  ID : String := ""
  Typ : String := ""
deriving DecidableEq, Repr

/-- Modelled from the spec: the external Recipient entity (its Go definition
is not under src/); all this file uses of it is an id and a document type. -/
structure Recipient where
  RID : String := ""
deriving DecidableEq, Repr

/-- Modelled from the spec: `Recipient.ID` accessor. -/
def Recipient.ID (r : Recipient) : String := r.RID

/-- Modelled from the spec: a Recipient's document type is the recipients
collection. -/
def Recipient.DocType (_ : Recipient) : String := consts.Recipients

/-- `SharingRecipient`: one recipient association.  The unexported transient
back-reference `recipient *Recipient` becomes an `Option Recipient`
(`none` = nil pointer). -/
structure SharingRecipient where
  Status : String := ""
  AccessToken : String := ""
  RefreshToken : String := ""
  RefRecipient : ResourceIdentifier := {}
  recipient : Option Recipient := none
deriving DecidableEq, Repr

/-- The `Sharing` document.  (`Type` is a Lean keyword, so the Go field
`Type` is spelled `Typ`.) -/
structure Sharing where
  SID : String := ""
  SRev : String := ""
  Typ : String := ""
  Owner : Bool := false
  Desc : String := ""
  SharingID : String := ""
  SharingType : String := ""
  Permissions : Option PermSet := none
  SRecipients : List SharingRecipient := []
deriving DecidableEq, Repr

/-- Modelled from the spec: the store handle, as the pure contract
`getDocument(db, collection, id) → (doc, error)` /
`createDocument(db, doc) → error` the spec lists for the external store. -/
structure Database where
  getDoc : String → String → Except StoreErr Recipient
  createDoc : Sharing → Option StoreErr

/-- One store call, for the I/O trace of an operation. -/
inductive StoreOp : Type where
  | getOp (doctype id : String) : StoreOp
  | createOp (doc : Sharing) : StoreOp
deriving DecidableEq, Repr

/-- Whether a store operation is a document insertion. -/
def StoreOp.isCreate : StoreOp → Bool
  | StoreOp.getOp _ _ => false
  | StoreOp.createOp _ => true

/-- `GetRecipient`: fetch a Recipient by id; the store's not-found condition
is remapped to the domain error, every other store error passes through.
Second component: the store calls performed. -/
def GetRecipient (db : Database) (recID : String) :
    Except Err Recipient × List StoreOp :=
  let ops := [StoreOp.getOp consts.Recipients recID]
  match db.getDoc consts.Recipients recID with
  | Except.ok doc => (Except.ok doc, ops)
  | Except.error e =>
      if IsNotFoundError e then (Except.error Err.recipientDoesNotExist, ops)
      else (Except.error (Err.store e), ops)

/-- The loop body of `(*Sharing).Recipients`: walk the association list in
order, fetching each referenced Recipient.  Returns the Go function's result
(`nil, err` on first failure, the rebuilt list on success), the state of the
association structs after the loop — Go mutates each resolved association's
`recipient` field in place through the slice's pointers, so a failure leaves
the already-resolved prefix populated — and the trace of store calls. -/
def resolveLoop (db : Database) :
    List SharingRecipient →
      Except Err (List SharingRecipient) × List SharingRecipient × List StoreOp
  | [] => (Except.ok [], [], [])
  | sRec :: rest =>
    match GetRecipient db sRec.RefRecipient.ID with
    | (Except.error e, ops) => (Except.error e, sRec :: rest, ops)
    | (Except.ok recipient, ops) =>
      let sRec' : SharingRecipient := { sRec with recipient := some recipient }
      match resolveLoop db rest with
      | (Except.error e, rest', ops') =>
          (Except.error e, sRec' :: rest', ops ++ ops')
      | (Except.ok l, rest', ops') =>
          (Except.ok (sRec' :: l), sRec' :: rest', ops ++ ops')

/-- `(*Sharing).Recipients`: resolve all recipients.  On success the rebuilt
list is assigned back onto the Sharing; on failure the slice field is not
reassigned, but the structs it points to keep any in-place mutations the
partial loop made. -/
def Sharing.Recipients (db : Database) (s : Sharing) :
    Except Err (List SharingRecipient) × Sharing × List StoreOp :=
  match resolveLoop db s.SRecipients with
  | (Except.ok l, _, ops) => (Except.ok l, { s with SRecipients := l }, ops)
  | (Except.error e, st, ops) => (Except.error e, { s with SRecipients := st }, ops)

/-- `CheckSharingType`: nil error exactly on the three enumerated constants. -/
def CheckSharingType (sharingType : String) : Option Err :=
  if sharingType = consts.OneShotSharing then none
  else if sharingType = consts.MasterSlaveSharing then none
  else if sharingType = consts.MasterMasterSharing then none
  else some Err.badSharingType

/-- Modelled from the spec: `utils.RandomString n` (not under src/) draws `n`
random characters; the randomness source is an explicit character stream. -/
def RandomString (seed : Nat → Char) (n : Nat) : String :=
  String.mk ((List.range n).map seed)

/-- `CheckSharingCreation`: re-validate the sharing type, resolve all
recipients, then mark every recipient pending, set `Owner`, and overwrite
`SharingID` with a fresh 32-character random string.  Returns the Go error,
the state of the Sharing after the call, and the trace of store calls. -/
def CheckSharingCreation (seed : Nat → Char) (db : Database) (s : Sharing) :
    Option Err × Sharing × List StoreOp :=
  match CheckSharingType s.SharingType with
  | some e => (some e, s, [])
  | none =>
    match Sharing.Recipients db s with
    | (Except.error e, s', ops) => (some e, s', ops)
    | (Except.ok l, s', ops) =>
      let l' := l.map (fun sRec => { sRec with Status := consts.PendingSharingStatus })
      (none, { s' with SRecipients := l', Owner := true,
                       SharingID := RandomString seed 32 }, ops)

/-- `Create`: insert the Sharing document; store errors surface unchanged. -/
def Create (db : Database) (doc : Sharing) : Option Err :=
  match db.createDoc doc with
  | some e => some (Err.store e)
  | none => none

/-- `CreateSharingRequest`: validate the state token, the sharing type and
the scope string, parse the scope, then construct and persist the Sharing.
Mirrors Go's two return values as `Option Sharing × Option Err`, plus the
trace of store calls.  The scope parser is the external collaborator
`permissions.UnmarshalScopeString`, passed in as a function; its errors pass
through (injected as `Err.scope`). -/
def CreateSharingRequest (parse : String → Except String PermSet)
    (db : Database) (desc state sharingType scope : String) :
    (Option Sharing × Option Err) × List StoreOp :=
  if state = "" then ((none, some Err.missingState), [])
  else match CheckSharingType sharingType with
  | some e => ((none, some e), [])
  | none =>
    if scope = "" then ((none, some Err.missingScope), [])
    else match parse scope with
    | Except.error e => ((none, some (Err.scope e)), [])
    | Except.ok perms =>
      let sharing : Sharing :=
        { SharingType := sharingType, SharingID := state,
          Permissions := some perms, Owner := false, Desc := desc }
      ((some sharing, Create db sharing), [StoreOp.createOp sharing])

/-- `jsonapi.Relationship`: the `data` of one relationship group. -/
structure Relationship where
  Data : List ResourceIdentifier := []
deriving DecidableEq, Repr

/-- `jsonapi.RelationshipMap`: named relationship groups. -/
abbrev RelationshipMap := List (String × Relationship)

/-- The loop body of `(*Sharing).Relationships`: each association's
`recipient` pointer is dereferenced for its id and doctype; a nil pointer
makes the Go code panic, modelled as `none`. -/
def buildData : List SharingRecipient → Option (List ResourceIdentifier)
  | [] => some []
  | rec :: rest =>
    match rec.recipient with
    | none => none
    | some r =>
      match buildData rest with
      | none => none
      | some ds => some ({ ID := r.ID, Typ := r.DocType } :: ds)

/-- `(*Sharing).Relationships`: one named group `"recipients"` whose data
lists one `{id, type}` identifier per association, in stored order.  `none`
models the nil-dereference panic on an unresolved association. -/
def Sharing.Relationships (s : Sharing) : Option RelationshipMap :=
  match buildData s.SRecipients with
  | none => none
  | some data => some [("recipients", { Data := data })]

/-- `(*Sharing).Included`: the ordered list of `recipient` pointers.  The Go
loop appends the pointer without dereferencing it, so a nil entry is returned
as-is, never a panic. -/
def Sharing.Included (s : Sharing) : List (Option Recipient) :=
  s.SRecipients.map (fun rec => rec.recipient)

/-- Whether the store lookup for one association's referenced id succeeds. -/
def fetchOk (db : Database) (r : SharingRecipient) : Bool :=
  match db.getDoc consts.Recipients r.RefRecipient.ID with
  | Except.ok _ => true
  | Except.error _ => false

/-- The Recipient the store holds for an id, when the lookup succeeds. -/
def fetched (db : Database) (id : String) : Option Recipient :=
  (db.getDoc consts.Recipients id).toOption

/-- The persisted fields of an association — everything except the transient
`recipient` back-reference. -/
def persistedPart (r : SharingRecipient) :
    String × String × String × ResourceIdentifier :=
  (r.Status, r.AccessToken, r.RefreshToken, r.RefRecipient)

/-! ### Helper lemmas -/

lemma fetchOk_eq_true_iff (db : Database) (r : SharingRecipient) :
    fetchOk db r = true ↔
      ∃ rec, db.getDoc consts.Recipients r.RefRecipient.ID = Except.ok rec := by
  unfold fetchOk
  cases h : db.getDoc consts.Recipients r.RefRecipient.ID <;> simp

lemma fetchOk_eq_false_iff (db : Database) (r : SharingRecipient) :
    fetchOk db r = false ↔
      ∃ e, db.getDoc consts.Recipients r.RefRecipient.ID = Except.error e := by
  unfold fetchOk
  cases h : db.getDoc consts.Recipients r.RefRecipient.ID <;> simp

lemma getRecipient_of_ok (db : Database) (recID : String) (rec : Recipient)
    (h : db.getDoc consts.Recipients recID = Except.ok rec) :
    GetRecipient db recID =
      (Except.ok rec, [StoreOp.getOp consts.Recipients recID]) := by
  simp [GetRecipient, h]

lemma getRecipient_of_error (db : Database) (recID : String) (e : StoreErr)
    (h : db.getDoc consts.Recipients recID = Except.error e) :
    GetRecipient db recID =
      (Except.error (if IsNotFoundError e then Err.recipientDoesNotExist
                     else Err.store e),
       [StoreOp.getOp consts.Recipients recID]) := by
  by_cases hn : IsNotFoundError e <;> simp [GetRecipient, h, hn]

lemma resolveLoop_cons_ok (db : Database) (a : SharingRecipient)
    (rest : List SharingRecipient) (rec : Recipient)
    (h : db.getDoc consts.Recipients a.RefRecipient.ID = Except.ok rec) :
    resolveLoop db (a :: rest) =
      ((resolveLoop db rest).1.map
         (fun l => { a with recipient := some rec } :: l),
       { a with recipient := some rec } :: (resolveLoop db rest).2.1,
       StoreOp.getOp consts.Recipients a.RefRecipient.ID ::
         (resolveLoop db rest).2.2) := by
  rcases hres : resolveLoop db rest with ⟨res, st, ops⟩
  cases res <;>
    simp [resolveLoop, getRecipient_of_ok db _ rec h, hres, Except.map]

lemma resolveLoop_cons_err (db : Database) (a : SharingRecipient)
    (rest : List SharingRecipient) (e : StoreErr)
    (h : db.getDoc consts.Recipients a.RefRecipient.ID = Except.error e) :
    resolveLoop db (a :: rest) =
      (Except.error (if IsNotFoundError e then Err.recipientDoesNotExist
                     else Err.store e),
       a :: rest,
       [StoreOp.getOp consts.Recipients a.RefRecipient.ID]) := by
  by_cases hn : IsNotFoundError e <;>
    simp [resolveLoop, getRecipient_of_error db _ e h, hn]

lemma checkSharingType_none_iff (t : String) :
    CheckSharingType t = none ↔
      t = consts.OneShotSharing ∨ t = consts.MasterSlaveSharing ∨
        t = consts.MasterMasterSharing := by
  unfold CheckSharingType
  split_ifs <;> simp_all

lemma checkSharingType_some_eq {t : String} {e : Err}
    (h : CheckSharingType t = some e) : e = Err.badSharingType := by
  unfold CheckSharingType at h
  split_ifs at h
  all_goals simp_all

lemma randomString_length (seed : Nat → Char) (n : Nat) :
    (RandomString seed n).length = n := by
  simp [RandomString, String.length]

lemma randomString_ne_empty (seed : Nat → Char) :
    RandomString seed 32 ≠ "" := by
  intro h
  have := congrArg String.length h
  rw [randomString_length] at this
  simp at this

/-- The association an on-success resolution produces from `r`. -/
def resolvedAssoc (db : Database) (r : SharingRecipient) : SharingRecipient :=
  { r with recipient := fetched db r.RefRecipient.ID }

/-- The store call resolving an association performs. -/
def getOpOf (r : SharingRecipient) : StoreOp :=
  StoreOp.getOp consts.Recipients r.RefRecipient.ID

lemma resolveLoop_of_all_ok (db : Database) (l : List SharingRecipient)
    (h : ∀ r ∈ l, fetchOk db r = true) :
    resolveLoop db l =
      (Except.ok (l.map (resolvedAssoc db)), l.map (resolvedAssoc db),
       l.map getOpOf) := by
  induction l with
  | nil => simp [resolveLoop]
  | cons a rest ih =>
    obtain ⟨rec, hrec⟩ :=
      (fetchOk_eq_true_iff db a).mp (h a (List.mem_cons_self a rest))
    have hrest := ih (fun r hr => h r (List.mem_cons_of_mem a hr))
    rw [resolveLoop_cons_ok db a rest rec hrec, hrest]
    simp [Except.map, resolvedAssoc, getOpOf, fetched, hrec, Except.toOption]

lemma resolveLoop_state_persistedPart (db : Database)
    (l : List SharingRecipient) :
    ((resolveLoop db l).2.1).map persistedPart = l.map persistedPart := by
  induction l with
  | nil => simp [resolveLoop]
  | cons a rest ih =>
    cases hf : fetchOk db a with
    | false =>
      obtain ⟨e, he⟩ := (fetchOk_eq_false_iff db a).mp hf
      rw [resolveLoop_cons_err db a rest e he]
    | true =>
      obtain ⟨rec, hrec⟩ := (fetchOk_eq_true_iff db a).mp hf
      rw [resolveLoop_cons_ok db a rest rec hrec]
      simp only [List.map_cons]
      rw [ih]
      simp [persistedPart]

lemma resolveLoop_ops_no_create (db : Database) (l : List SharingRecipient) :
    ∀ op ∈ (resolveLoop db l).2.2, op.isCreate = false := by
  induction l with
  | nil => simp [resolveLoop]
  | cons a rest ih =>
    cases hf : fetchOk db a with
    | false =>
      obtain ⟨e, he⟩ := (fetchOk_eq_false_iff db a).mp hf
      rw [resolveLoop_cons_err db a rest e he]
      simp [StoreOp.isCreate]
    | true =>
      obtain ⟨rec, hrec⟩ := (fetchOk_eq_true_iff db a).mp hf
      rw [resolveLoop_cons_ok db a rest rec hrec]
      intro op hop
      rcases List.mem_cons.mp hop with h1 | h2
      · subst h1; rfl
      · exact ih op h2

lemma resolveLoop_error_of_exists (db : Database) (l : List SharingRecipient)
    (h : ∃ r ∈ l, fetchOk db r = false) :
    ∃ e, (resolveLoop db l).1 = Except.error e := by
  induction l with
  | nil => simp at h
  | cons a rest ih =>
    cases hf : fetchOk db a with
    | false =>
      obtain ⟨e, he⟩ := (fetchOk_eq_false_iff db a).mp hf
      rw [resolveLoop_cons_err db a rest e he]
      exact ⟨_, rfl⟩
    | true =>
      obtain ⟨rec, hrec⟩ := (fetchOk_eq_true_iff db a).mp hf
      have hrest : ∃ r ∈ rest, fetchOk db r = false := by
        rcases h with ⟨r, hr, hfr⟩
        rcases List.mem_cons.mp hr with h1 | h2
        · rw [h1] at hfr; rw [hf] at hfr; cases hfr
        · exact ⟨r, h2, hfr⟩
      obtain ⟨e, he⟩ := ih hrest
      rw [resolveLoop_cons_ok db a rest rec hrec]
      rcases hres : (resolveLoop db rest).1 with e' | l'
      · exact ⟨e', by simp [hres, Except.map]⟩
      · rw [hres] at he; cases he

lemma resolveLoop_fail_at (db : Database) (l : List SharingRecipient)
    (k : Nat) (hk : k < l.length) (e : Err)
    (hpre : ∀ r ∈ l.take k, fetchOk db r = true)
    (hfail : fetchOk db (l.get ⟨k, hk⟩) = false)
    (hget : (GetRecipient db ((l.get ⟨k, hk⟩).RefRecipient.ID)).1 =
      Except.error e) :
    (resolveLoop db l).1 = Except.error e ∧
      (resolveLoop db l).2.2 = (l.take (k + 1)).map getOpOf := by
  induction l generalizing k with
  | nil => exact absurd hk (Nat.not_lt_zero k)
  | cons a rest ih =>
    cases k with
    | zero =>
      obtain ⟨e0, he0⟩ := (fetchOk_eq_false_iff db a).mp (by simpa using hfail)
      have hsimp : (GetRecipient db a.RefRecipient.ID).1 = Except.error e := by
        simpa using hget
      rw [getRecipient_of_error db _ e0 he0] at hsimp
      simp only [] at hsimp
      have hval : (if IsNotFoundError e0 = true then Err.recipientDoesNotExist
          else Err.store e0) = e := by injection hsimp
      subst hval
      rw [resolveLoop_cons_err db a rest e0 he0]
      simp only [List.take_succ_cons, List.take_zero, List.map_cons,
        List.map_nil]
      exact ⟨trivial, by simp [getOpOf]⟩
    | succ k =>
      have ha : fetchOk db a = true := hpre a (by simp)
      obtain ⟨rec, hrec⟩ := (fetchOk_eq_true_iff db a).mp ha
      have hfail' : fetchOk db (rest.get ⟨k, Nat.lt_of_succ_lt_succ hk⟩) =
          false := by simpa using hfail
      have hget' : (GetRecipient db
          ((rest.get ⟨k, Nat.lt_of_succ_lt_succ hk⟩).RefRecipient.ID)).1 =
          Except.error e := by simpa using hget
      have hpre' : ∀ r ∈ rest.take k, fetchOk db r = true := by
        intro r hr
        exact hpre r (by simp [hr])
      obtain ⟨h1, h2⟩ := ih k (Nat.lt_of_succ_lt_succ hk) hpre' hfail' hget'
      rw [resolveLoop_cons_ok db a rest rec hrec]
      constructor
      · simp [h1, Except.map]
      · simp only [List.take_succ_cons, List.map_cons]
        rw [← h2]
        simp [getOpOf]

/-- The identifier `Relationships` builds from an association whose
back-reference is populated; junk on an unresolved association (that case is
a panic in the Go code and unreachable under the populated precondition). -/
def idOfAssoc (r : SharingRecipient) : ResourceIdentifier :=
  match r.recipient with
  | some rec => { ID := rec.ID, Typ := rec.DocType }
  | none => {}

lemma buildData_of_all_some (l : List SharingRecipient)
    (h : ∀ r ∈ l, r.recipient.isSome = true) :
    buildData l = some (l.map idOfAssoc) := by
  induction l with
  | nil => simp [buildData]
  | cons a rest ih =>
    have ha := h a (List.mem_cons_self a rest)
    obtain ⟨rec, hrec⟩ := Option.isSome_iff_exists.mp ha
    have hrest := ih (fun r hr => h r (List.mem_cons_of_mem a hr))
    simp [buildData, hrec, hrest, idOfAssoc]

/-! ### Concrete fixtures for witnesses and counterexamples -/

/-- A fixed character stream standing in for the randomness source. -/
def seedC : Nat → Char := fun _ => 'x'

/-- A store holding exactly one recipient document, `"alice"`; every other
lookup reports the store's not-found condition. -/
def dbC : Database :=
  { getDoc := fun _ id =>
      if id = "alice" then Except.ok { RID := "alice" }
      else Except.error StoreErr.notFound,
    createDoc := fun _ => none }

/-- A store resolving every id, and accepting every insert. -/
def dbAll : Database :=
  { getDoc := fun _ id => Except.ok { RID := id },
    createDoc := fun _ => none }

/-- A store failing every lookup with a non-not-found internal error. -/
def dbErr : Database :=
  { getDoc := fun _ _ => Except.error (StoreErr.internal "boom"),
    createDoc := fun _ => none }

/-- A sharing referencing `"alice"` then `"bob"`, back-references nil. -/
def sharingTwoRecs : Sharing :=
  { SharingType := "one-shot",
    SRecipients :=
      [ { RefRecipient := { ID := "alice", Typ := "io.cozy.recipients" } },
        { RefRecipient := { ID := "bob", Typ := "io.cozy.recipients" } } ] }

/-- A sharing whose type is outside the enumeration and with no recipients. -/
def sharingBadType : Sharing := { SharingType := "bad-type" }

/-- A sharing whose two associations already carry resolved back-references. -/
def sharingResolved : Sharing :=
  { SharingType := "master-slave",
    SRecipients :=
      [ { RefRecipient := { ID := "alice", Typ := "io.cozy.recipients" },
          recipient := some { RID := "alice" } },
        { RefRecipient := { ID := "bob", Typ := "io.cozy.recipients" },
          recipient := some { RID := "bob" } } ] }

/-- A trivial scope parser granting one rule per scope string. -/
def parseC : String → Except String PermSet := fun sc => Except.ok [sc]

/-! ### Claims -/

/-- C3: `CheckSharingType s` succeeds (returns no error) iff `s` is one of
`"one-shot"`, `"master-slave"`, `"master-master"`; every other string fails
with the bad-sharing-type error. -/
theorem checkSharingType_enum (s : String) :
    (CheckSharingType s = none ↔
      s = "one-shot" ∨ s = "master-slave" ∨ s = "master-master") ∧
    (¬(s = "one-shot" ∨ s = "master-slave" ∨ s = "master-master") →
      CheckSharingType s = some Err.badSharingType) := by
  constructor
  · exact checkSharingType_none_iff s
  · intro h
    cases hc : CheckSharingType s with
    | none => exact absurd ((checkSharingType_none_iff s).mp hc) h
    | some e => rw [checkSharingType_some_eq hc]

/-- Witness for C3 at the concrete strings `"one-shot"` and `"bad-type"`. -/
theorem checkSharingType_enum_witness :
    CheckSharingType "one-shot" = none ∧
    CheckSharingType "bad-type" = some Err.badSharingType :=
  ⟨(checkSharingType_enum "one-shot").1.mpr (Or.inl rfl),
   (checkSharingType_enum "bad-type").2 (by decide)⟩

/-- C4: on a non-empty state token, an enumerated sharing type, and a
non-empty scope string that parses, `CreateSharingRequest` returns a Sharing
with `Owner = false`, `SharingID` the state token, `Desc` the description and
`Permissions` the parsed set, and its only store call inserts that Sharing. -/
theorem createSharingRequest_ok (parse : String → Except String PermSet)
    (db : Database) (desc state sharingType scope : String) (perms : PermSet)
    (hstate : state ≠ "") (htype : CheckSharingType sharingType = none)
    (hscope : scope ≠ "") (hparse : parse scope = Except.ok perms) :
    ∃ sh : Sharing,
      (CreateSharingRequest parse db desc state sharingType scope).1.1 =
        some sh ∧
      sh.Owner = false ∧ sh.SharingID = state ∧ sh.Desc = desc ∧
      sh.Permissions = some perms ∧
      (CreateSharingRequest parse db desc state sharingType scope).2 =
        [StoreOp.createOp sh] := by
  refine ⟨{ SharingType := sharingType, SharingID := state,
            Permissions := some perms, Owner := false, Desc := desc },
          ?_, rfl, rfl, rfl, rfl, ?_⟩ <;>
    simp [CreateSharingRequest, hstate, htype, hscope, hparse]

/-- Witness for C4 at concrete inputs. -/
theorem createSharingRequest_ok_witness :
    ∃ sh : Sharing,
      (CreateSharingRequest parseC dbAll "docs" "tok123" "one-shot"
        "io.cozy.files").1.1 = some sh ∧
      sh.Owner = false ∧ sh.SharingID = "tok123" ∧ sh.Desc = "docs" ∧
      sh.Permissions = some ["io.cozy.files"] ∧
      (CreateSharingRequest parseC dbAll "docs" "tok123" "one-shot"
        "io.cozy.files").2 = [StoreOp.createOp sh] :=
  createSharingRequest_ok parseC dbAll "docs" "tok123" "one-shot"
    "io.cozy.files" ["io.cozy.files"] (by decide) (by decide) (by decide) rfl

/-- C5: whenever the state token is empty, or the sharing type is outside the
enumeration, or the scope string is empty, `CreateSharingRequest` fails with
one of the three validation errors, returns no Sharing, and performs no store
call. -/
theorem createSharingRequest_validation
    (parse : String → Except String PermSet) (db : Database)
    (desc state sharingType scope : String)
    (h : state = "" ∨ CheckSharingType sharingType ≠ none ∨ scope = "") :
    ∃ e, (CreateSharingRequest parse db desc state sharingType scope).1 =
        (none, some e) ∧
      (e = Err.missingState ∨ e = Err.badSharingType ∨
        e = Err.missingScope) ∧
      (CreateSharingRequest parse db desc state sharingType scope).2 = [] := by
  by_cases h1 : state = ""
  · exact ⟨Err.missingState, by simp [CreateSharingRequest, h1], Or.inl rfl,
      by simp [CreateSharingRequest, h1]⟩
  · cases h2 : CheckSharingType sharingType with
    | some e =>
      rw [checkSharingType_some_eq h2] at h2
      exact ⟨Err.badSharingType, by simp [CreateSharingRequest, h1, h2],
        Or.inr (Or.inl rfl), by simp [CreateSharingRequest, h1, h2]⟩
    | none =>
      have h3 : scope = "" := by
        rcases h with h | h | h
        · exact absurd h h1
        · exact absurd h2 h
        · exact h
      exact ⟨Err.missingScope, by simp [CreateSharingRequest, h1, h2, h3],
        Or.inr (Or.inr rfl), by simp [CreateSharingRequest, h1, h2, h3]⟩

/-- Witness for C5 at a concrete invalid input (empty scope). -/
theorem createSharingRequest_validation_witness :
    ∃ e, (CreateSharingRequest parseC dbAll "d" "tok" "one-shot" "").1 =
        (none, some e) ∧
      (e = Err.missingState ∨ e = Err.badSharingType ∨
        e = Err.missingScope) ∧
      (CreateSharingRequest parseC dbAll "d" "tok" "one-shot" "").2 = [] :=
  createSharingRequest_validation parseC dbAll "d" "tok" "one-shot" ""
    (Or.inr (Or.inr rfl))

/-- C9: the validation checks of `CreateSharingRequest` run in a fixed
order — empty state token first (its error wins over any other invalidity),
then the sharing type, and the missing-scope error can only be reported when
state token and sharing type are both valid. -/
theorem createSharingRequest_error_order
    (parse : String → Except String PermSet) (db : Database)
    (desc state sharingType scope : String) :
    (state = "" →
      (CreateSharingRequest parse db desc state sharingType scope).1.2 =
        some Err.missingState) ∧
    (state ≠ "" → CheckSharingType sharingType ≠ none →
      (CreateSharingRequest parse db desc state sharingType scope).1.2 =
        some Err.badSharingType) ∧
    ((CreateSharingRequest parse db desc state sharingType scope).1.2 =
        some Err.missingScope →
      state ≠ "" ∧ CheckSharingType sharingType = none ∧ scope = "") := by
  refine ⟨?_, ?_, ?_⟩
  · intro h1
    simp [CreateSharingRequest, h1]
  · intro h1 h2
    cases hc : CheckSharingType sharingType with
    | none => exact absurd hc h2
    | some e =>
      rw [checkSharingType_some_eq hc] at hc
      simp [CreateSharingRequest, h1, hc]
  · intro h
    by_cases h1 : state = ""
    · simp [CreateSharingRequest, h1] at h
    · cases hc : CheckSharingType sharingType with
      | some e =>
        rw [checkSharingType_some_eq hc] at hc
        simp [CreateSharingRequest, h1, hc] at h
      | none =>
        by_cases h3 : scope = ""
        · exact ⟨h1, hc ▸ rfl, h3⟩
        · exfalso
          cases hp : parse scope with
          | error e => simp [CreateSharingRequest, h1, hc, h3, hp] at h
          | ok perms =>
            cases hcr : db.createDoc
                { SharingType := sharingType, SharingID := state,
                  Permissions := some perms, Owner := false,
                  Desc := desc } with
            | none =>
              simp [CreateSharingRequest, h1, hc, h3, hp, Create, hcr] at h
            | some e =>
              simp [CreateSharingRequest, h1, hc, h3, hp, Create, hcr] at h

/-- Witness for C9: empty state wins over invalid type and empty scope;
invalid type wins over empty scope; missing-scope at valid state and type. -/
theorem createSharingRequest_error_order_witness :
    (CreateSharingRequest parseC dbAll "d" "" "bad-type" "").1.2 =
      some Err.missingState ∧
    (CreateSharingRequest parseC dbAll "d" "tok" "bad-type" "").1.2 =
      some Err.badSharingType ∧
    ((CreateSharingRequest parseC dbAll "d" "tok" "one-shot" "").1.2 =
        some Err.missingScope →
      "tok" ≠ "" ∧ CheckSharingType "one-shot" = none ∧ ("" : String) = "") :=
  ⟨(createSharingRequest_error_order parseC dbAll "d" "" "bad-type" "").1 rfl,
   (createSharingRequest_error_order parseC dbAll "d" "tok" "bad-type" "").2.1
     (by decide) (by decide),
   (createSharingRequest_error_order parseC dbAll "d" "tok" "one-shot" "").2.2⟩

/-- C1 is refuted: with `"alice"` resolvable and `"bob"` absent,
`CheckSharingCreation` returns an error, yet the first association's
transient recipient back-reference has been populated in place — it is not
unchanged from before the call. -/
theorem checkSharingCreation_mutation_counterexample :
    ((CheckSharingCreation seedC dbC sharingTwoRecs).1).isSome = true ∧
    (CheckSharingCreation seedC dbC sharingTwoRecs).2.1.SRecipients.map
        (fun r => r.recipient) ≠
      sharingTwoRecs.SRecipients.map (fun r => r.recipient) := by decide

/-- C1 (amended): when some referenced recipient id is absent from the
store, `CheckSharingCreation` returns an error, and `Owner`, `SharingID`,
the association count and every association's persisted fields (status,
recipientRef, tokens) are unchanged; only the transient back-references of
associations resolved before the failure may have been populated. -/
theorem checkSharingCreation_fail_preserves_persisted (seed : Nat → Char)
    (db : Database) (s : Sharing)
    (h : ∃ r ∈ s.SRecipients,
      db.getDoc consts.Recipients r.RefRecipient.ID =
        Except.error StoreErr.notFound) :
    ((CheckSharingCreation seed db s).1).isSome = true ∧
    (CheckSharingCreation seed db s).2.1.Owner = s.Owner ∧
    (CheckSharingCreation seed db s).2.1.SharingID = s.SharingID ∧
    (CheckSharingCreation seed db s).2.1.SRecipients.map persistedPart =
      s.SRecipients.map persistedPart := by
  cases ht : CheckSharingType s.SharingType with
  | some e => simp [CheckSharingCreation, ht]
  | none =>
    have hex : ∃ r ∈ s.SRecipients, fetchOk db r = false := by
      rcases h with ⟨r, hr, he⟩
      exact ⟨r, hr, (fetchOk_eq_false_iff db r).mpr ⟨_, he⟩⟩
    obtain ⟨e, he⟩ := resolveLoop_error_of_exists db s.SRecipients hex
    have hst := resolveLoop_state_persistedPart db s.SRecipients
    rcases hres : resolveLoop db s.SRecipients with ⟨res, st, ops⟩
    rw [hres] at he hst
    have he' : res = Except.error e := he
    have hst' : st.map persistedPart = s.SRecipients.map persistedPart := hst
    subst he'
    simp [CheckSharingCreation, ht, Sharing.Recipients, hres, hst']

/-- Witness for the amended C1 at a concrete store missing `"bob"`. -/
theorem checkSharingCreation_fail_preserves_persisted_witness :
    ((CheckSharingCreation seedC dbC sharingTwoRecs).1).isSome = true ∧
    (CheckSharingCreation seedC dbC sharingTwoRecs).2.1.Owner =
      sharingTwoRecs.Owner ∧
    (CheckSharingCreation seedC dbC sharingTwoRecs).2.1.SharingID =
      sharingTwoRecs.SharingID ∧
    (CheckSharingCreation seedC dbC sharingTwoRecs).2.1.SRecipients.map
        persistedPart =
      sharingTwoRecs.SRecipients.map persistedPart :=
  checkSharingCreation_fail_preserves_persisted seedC dbC sharingTwoRecs
    ⟨{ RefRecipient := { ID := "bob", Typ := "io.cozy.recipients" } },
     by decide, by decide⟩

/-- C2 is refuted: a Sharing whose `SharingType` is outside the enumeration
has all of its (zero) recipient ids resolvable, yet `CheckSharingCreation`
fails instead of succeeding — the claim omits the sharing-type
re-validation. -/
theorem checkSharingCreation_type_counterexample :
    (∀ r ∈ sharingBadType.SRecipients, fetchOk dbC r = true) ∧
    (CheckSharingCreation seedC dbC sharingBadType).1 ≠ none := by decide

/-- C2 (amended): for every Sharing whose `SharingType` is enumerated and
all of whose referenced recipient ids resolve, `CheckSharingCreation`
succeeds; afterwards `Owner` is true, `SharingID` is the freshly generated
non-empty 32-character string (overwriting any previous value), every
association's status is `"pending"`, and the call inserts no document. -/
theorem checkSharingCreation_ok (seed : Nat → Char) (db : Database)
    (s : Sharing)
    (htype : CheckSharingType s.SharingType = none)
    (hres : ∀ r ∈ s.SRecipients, fetchOk db r = true) :
    (CheckSharingCreation seed db s).1 = none ∧
    (CheckSharingCreation seed db s).2.1.Owner = true ∧
    (CheckSharingCreation seed db s).2.1.SharingID = RandomString seed 32 ∧
    (RandomString seed 32).length = 32 ∧
    RandomString seed 32 ≠ "" ∧
    (CheckSharingCreation seed db s).2.1.SRecipients.length =
      s.SRecipients.length ∧
    (∀ r ∈ (CheckSharingCreation seed db s).2.1.SRecipients,
      r.Status = consts.PendingSharingStatus) ∧
    (∀ op ∈ (CheckSharingCreation seed db s).2.2, op.isCreate = false) := by
  have hloop := resolveLoop_of_all_ok db s.SRecipients hres
  refine ⟨?_, ?_, ?_, randomString_length seed 32,
    randomString_ne_empty seed, ?_, ?_, ?_⟩
  · simp [CheckSharingCreation, htype, Sharing.Recipients, hloop]
  · simp [CheckSharingCreation, htype, Sharing.Recipients, hloop]
  · simp [CheckSharingCreation, htype, Sharing.Recipients, hloop]
  · simp [CheckSharingCreation, htype, Sharing.Recipients, hloop]
  · intro r hr
    simp only [CheckSharingCreation, htype, Sharing.Recipients, hloop] at hr
    simp only [List.mem_map] at hr
    obtain ⟨x, -, rfl⟩ := hr
    rfl
  · intro op hop
    simp only [CheckSharingCreation, htype, Sharing.Recipients, hloop] at hop
    simp only [List.mem_map] at hop
    obtain ⟨x, -, rfl⟩ := hop
    rfl

/-- Witness for the amended C2 at a store resolving every id. -/
theorem checkSharingCreation_ok_witness :
    (CheckSharingCreation seedC dbAll sharingTwoRecs).1 = none ∧
    (CheckSharingCreation seedC dbAll sharingTwoRecs).2.1.Owner = true ∧
    (RandomString seedC 32).length = 32 := by
  have h := checkSharingCreation_ok seedC dbAll sharingTwoRecs
    (by decide) (by decide)
  exact ⟨h.1, h.2.1, h.2.2.2.1⟩

/-- C6: when every referenced recipient id resolves, `Recipients` succeeds,
reassigns the resolved list onto the Sharing, performs one fetch per
association in order, and the i-th output association keeps the i-th input's
`recipientRef` while its back-reference is the entity the store holds for
that id. -/
theorem recipients_order_preserved (db : Database) (s : Sharing)
    (h : ∀ r ∈ s.SRecipients, fetchOk db r = true) :
    ∃ l, Sharing.Recipients db s =
        (Except.ok l, { s with SRecipients := l },
         s.SRecipients.map getOpOf) ∧
      l.length = s.SRecipients.length ∧
      (∀ i (hi : i < s.SRecipients.length) (hl : i < l.length),
        (l.get ⟨i, hl⟩).RefRecipient =
          (s.SRecipients.get ⟨i, hi⟩).RefRecipient ∧
        ∃ rec, db.getDoc consts.Recipients
            ((s.SRecipients.get ⟨i, hi⟩).RefRecipient.ID) = Except.ok rec ∧
          (l.get ⟨i, hl⟩).recipient = some rec) := by
  have hloop := resolveLoop_of_all_ok db s.SRecipients h
  refine ⟨s.SRecipients.map (resolvedAssoc db), ?_, by simp, ?_⟩
  · simp [Sharing.Recipients, hloop]
  · intro i hi hl
    have hmem : s.SRecipients.get ⟨i, hi⟩ ∈ s.SRecipients :=
      List.get_mem s.SRecipients i hi
    obtain ⟨rec, hrec⟩ := (fetchOk_eq_true_iff db _).mp (h _ hmem)
    have hget : (s.SRecipients.map (resolvedAssoc db)).get ⟨i, hl⟩ =
        resolvedAssoc db (s.SRecipients.get ⟨i, hi⟩) := by
      simp [List.get_eq_getElem, List.getElem_map]
    rw [hget]
    refine ⟨rfl, rec, hrec, ?_⟩
    rw [List.get_eq_getElem] at hrec
    simp [resolvedAssoc, fetched, Except.toOption, List.get_eq_getElem, hrec]

/-- Witness for C6: the fetch trace lists each association's id in order. -/
theorem recipients_order_preserved_witness :
    (Sharing.Recipients dbAll sharingTwoRecs).2.2 =
      sharingTwoRecs.SRecipients.map getOpOf := by
  obtain ⟨l, h1, -, -⟩ :=
    recipients_order_preserved dbAll sharingTwoRecs (by decide)
  rw [h1]

/-- C7: `GetRecipient` reports the domain recipient-does-not-exist error
exactly when the store lookup reports its not-found condition and passes
every other store error through unchanged; `Recipients` is fail-fast — the
first association (in order) whose resolution fails determines the returned
error, and no later fetch is attempted. -/
theorem getRecipient_remap_recipients_failfast (db : Database)
    (recID : String) (s : Sharing) :
    ((GetRecipient db recID).1 = Except.error Err.recipientDoesNotExist ↔
      db.getDoc consts.Recipients recID = Except.error StoreErr.notFound) ∧
    (∀ e, db.getDoc consts.Recipients recID = Except.error e →
      IsNotFoundError e = false →
      (GetRecipient db recID).1 = Except.error (Err.store e)) ∧
    (∀ k (hk : k < s.SRecipients.length) (e : Err),
      (∀ r ∈ s.SRecipients.take k, fetchOk db r = true) →
      fetchOk db (s.SRecipients.get ⟨k, hk⟩) = false →
      (GetRecipient db ((s.SRecipients.get ⟨k, hk⟩).RefRecipient.ID)).1 =
        Except.error e →
      (Sharing.Recipients db s).1 = Except.error e ∧
      (Sharing.Recipients db s).2.2 =
        (s.SRecipients.take (k + 1)).map getOpOf) := by
  refine ⟨?_, ?_, ?_⟩
  · cases hg : db.getDoc consts.Recipients recID with
    | ok rec =>
      rw [getRecipient_of_ok db recID rec hg]
      simp
    | error e =>
      rw [getRecipient_of_error db recID e hg]
      cases e with
      | notFound => simp [IsNotFoundError]
      | internal msg => simp [IsNotFoundError]
  · intro e hg hn
    rw [getRecipient_of_error db recID e hg]
    simp [hn]
  · intro k hk e hpre hfail hget
    obtain ⟨h1, h2⟩ :=
      resolveLoop_fail_at db s.SRecipients k hk e hpre hfail hget
    rcases hres : resolveLoop db s.SRecipients with ⟨res, st, ops⟩
    rw [hres] at h1 h2
    have h1' : res = Except.error e := h1
    have h2' : ops = (s.SRecipients.take (k + 1)).map getOpOf := h2
    subst h1'
    exact ⟨by simp [Sharing.Recipients, hres],
      by simp [Sharing.Recipients, hres, h2']⟩

/-- Witness for C7: the second association of a two-recipient sharing is the
first failing one; the call stops after its fetch and surfaces the remapped
not-found error. -/
theorem getRecipient_remap_recipients_failfast_witness :
    (GetRecipient dbC "bob").1 = Except.error Err.recipientDoesNotExist ∧
    (Sharing.Recipients dbC sharingTwoRecs).1 =
      Except.error Err.recipientDoesNotExist ∧
    (Sharing.Recipients dbC sharingTwoRecs).2.2 =
      (sharingTwoRecs.SRecipients.take 2).map getOpOf := by
  have h1 :=
    (getRecipient_remap_recipients_failfast dbC "bob" sharingTwoRecs).1.mpr
      (by decide)
  have h3 :=
    (getRecipient_remap_recipients_failfast dbC "bob" sharingTwoRecs).2.2
      1 (by decide) Err.recipientDoesNotExist (by decide) (by decide)
      (by decide)
  exact ⟨h1, h3.1, h3.2⟩

/-- C8: with every back-reference populated, `Relationships` yields exactly
the one named group `"recipients"` with one identifier per association, and
for each index the identifier's id and type are those of the entity at the
same index of `Included`. -/
theorem relationships_included_aligned (s : Sharing)
    (h : ∀ r ∈ s.SRecipients, r.recipient.isSome = true) :
    ∃ data,
      Sharing.Relationships s = some [("recipients", { Data := data })] ∧
      data.length = s.SRecipients.length ∧
      (Sharing.Included s).length = s.SRecipients.length ∧
      (∀ i (hd : i < data.length) (hi : i < (Sharing.Included s).length),
        ∃ rec, (Sharing.Included s).get ⟨i, hi⟩ = some rec ∧
          data.get ⟨i, hd⟩ = { ID := rec.ID, Typ := rec.DocType }) := by
  have hbd := buildData_of_all_some s.SRecipients h
  refine ⟨s.SRecipients.map idOfAssoc,
    by simp [Sharing.Relationships, hbd], by simp,
    by simp [Sharing.Included], ?_⟩
  intro i hd hi
  have hi' : i < s.SRecipients.length := by
    simpa [Sharing.Included] using hi
  have hmem : s.SRecipients.get ⟨i, hi'⟩ ∈ s.SRecipients :=
    List.get_mem s.SRecipients i hi'
  obtain ⟨rec, hrec⟩ := Option.isSome_iff_exists.mp (h _ hmem)
  rw [List.get_eq_getElem] at hrec
  refine ⟨rec, ?_, ?_⟩
  · simp only [Sharing.Included, List.get_eq_getElem, List.getElem_map]
    exact hrec
  · simp only [List.get_eq_getElem, List.getElem_map, idOfAssoc]
    rw [hrec]

/-- Witness for C8 on a sharing with two resolved associations. -/
theorem relationships_included_aligned_witness :
    (Sharing.Relationships sharingResolved).isSome = true := by
  obtain ⟨data, h1, -, -, -⟩ :=
    relationships_included_aligned sharingResolved (by decide)
  rw [h1]
  rfl

/-- C10: with every back-reference populated, `Relationships` and `Included`
dereference no nil pointer and return normally; on the empty association
list, `Relationships` is the `"recipients"` group with an empty identifier
list and `Included` is the empty list. -/
theorem relationships_included_total (s : Sharing)
    (h : ∀ r ∈ s.SRecipients, r.recipient.isSome = true) :
    (Sharing.Relationships s).isSome = true ∧
    (Sharing.Included s).length = s.SRecipients.length ∧
    (s.SRecipients = [] →
      Sharing.Relationships s = some [("recipients", { Data := [] })] ∧
      Sharing.Included s = []) := by
  have hbd := buildData_of_all_some s.SRecipients h
  refine ⟨by simp [Sharing.Relationships, hbd], by simp [Sharing.Included],
    ?_⟩
  intro he
  exact ⟨by simp [Sharing.Relationships, he, buildData],
    by simp [Sharing.Included, he]⟩

/-- Witness for C10 at the empty sharing. -/
theorem relationships_included_total_witness :
    Sharing.Relationships { SharingType := "one-shot" } =
      some [("recipients", { Data := [] })] ∧
    Sharing.Included { SharingType := "one-shot" } = [] :=
  (relationships_included_total { SharingType := "one-shot" }
    (by decide)).2.2 rfl

end Sharings
